import Mathlib

/-
Verification of the hub discovery, bitfield decoding and dual-hub
correlation engine of uhubctl (src/usb.h), as a shallow embedding.

The embedding keeps the source's names where possible:
`get_hub_info_ppps` is the PPPS classification done inside get_hub_info,
`get_port_status` models the function of the same name,
`print_port_status_ports` models the per-port loop of print_port_status,
`usb_scan` models the first (discovery/filter) loop of usb_find_hubs,
`correlate` models its second (count/dual-matching) loop and
`usb_find_hubs` composes them, including the error return.
Machine integers are modelled as Nat (raw descriptor words) and Int
(C int return values); C strings are lists of characters.
-/

/-! ### Constants from src/usb.h -/

/-- USB_SS_BCD: first bcdUSB value of the SuperSpeed generation. -/
def USB_SS_BCD : Nat := 0x0300

/-- HUB_CHAR_LPSM: logical power switching mode mask (bits 1:0). -/
def HUB_CHAR_LPSM : Nat := 0x0003

/-- HUB_CHAR_INDV_PORT_LPSM: per-port power switching. -/
def HUB_CHAR_INDV_PORT_LPSM : Nat := 0x0001

/-- HUB_CHAR_OCPM: over-current protection mode mask (bits 4:3). -/
def HUB_CHAR_OCPM : Nat := 0x0018

/-- HUB_CHAR_INDV_PORT_OCPM: per-port over-current protection. -/
def HUB_CHAR_INDV_PORT_OCPM : Nat := 0x0008

/-- HUB_CHAR_COMMON_OCPM: ganged over-current protection. -/
def HUB_CHAR_COMMON_OCPM : Nat := 0x0000

/-- USB_PORT_STAT_LINK_STATE: USB3 link-state field mask (bits 5..8). -/
def USB_PORT_STAT_LINK_STATE : Nat := 0x01e0

/-- USB_SS_PORT_LS_SS_DISABLED: the SS.Disabled link state. -/
def USB_SS_PORT_LS_SS_DISABLED : Nat := 0x0080

/-- MAX_HUBS: capacity of the hubs[] registry array. -/
def MAX_HUBS : Nat := 128

/-- LIBUSB_ERROR_ACCESS: libusb permission-denied error code. -/
def LIBUSB_ERROR_ACCESS : Int := -3

/-- LIBUSB_CLASS_HUB: device class of USB hubs. -/
def LIBUSB_CLASS_HUB : Nat := 9

/-! ### Bitfield decoder -/

/-- PPPS classification performed by get_hub_info on the hub descriptor:
the code reads the low byte wHubCharacteristics[0] of the 16-bit
characteristics word, extracts the LPSM and OCPM fields with bit masks and
sets info->ppps to 1 exactly when LPSM is per-port and OCPM is per-port
or ganged. -/
def get_hub_info_ppps (wHubCharacteristics : Nat) : Bool :=
  let c0 := wHubCharacteristics % 256
  let lpsm := c0 &&& HUB_CHAR_LPSM
  let ocpm := c0 &&& HUB_CHAR_OCPM
  decide (lpsm = HUB_CHAR_INDV_PORT_LPSM) &&
    (decide (ocpm = HUB_CHAR_INDV_PORT_OCPM) || decide (ocpm = HUB_CHAR_COMMON_OCPM))

/-- Reinterpretation of a raw 16-bit word as the C int16_t value stored in
struct usb_port_status (two's complement). -/
def toSigned16 (w : Nat) : Int :=
  if w < 0x8000 then (w : Int) else (w : Int) - 0x10000

/-- Result of the libusb_control_transfer call issued by get_port_status:
either a negative libusb error code, or a successful read of the raw
16-bit little-endian wPortStatus word. -/
inductive ControlTransfer where
  | err (rc : Int)
  | ok (wPortStatus : Nat)
deriving DecidableEq

/-- get_port_status from src/usb.h: returns -1 for a NULL device handle,
the negative error code when the control transfer fails, and otherwise
the int16_t field ust.wPortStatus. -/
def get_port_status (devh : Option Unit) (transfer : ControlTransfer) : Int :=
  match devh with
  | none => -1
  | some _ =>
    match transfer with
    | ControlTransfer.err rc => rc
    | ControlTransfer.ok w => toSigned16 w

/-- The off test of print_port_status: a USB2 port is printed " off" iff its
status value is exactly 0; a USB3 port iff its status value equals
USB_SS_PORT_LS_SS_DISABLED. The argument is the int returned by
get_port_status. -/
def print_port_status_off (bcd_usb : Nat) (port_status : Int) : Bool :=
  if bcd_usb < USB_SS_BCD then decide (port_status = 0)
  else decide (port_status = (USB_SS_PORT_LS_SS_DISABLED : Int))

/-- The port loop of print_port_status, starting at port number `start`
with `fuel` port numbers still to visit: ports masked out by portmask are
skipped, a port whose get_port_status result is -1 stops the loop (break),
every other port is processed. Returns the processed port numbers. -/
def print_ports_from (status : Nat → Int) (portmask : Nat) :
    Nat → Nat → List Nat
  | _, 0 => []
  | port, fuel+1 =>
    if portmask > 0 ∧ portmask &&& (1 <<< (port - 1)) = 0 then
      print_ports_from status portmask (port+1) fuel
    else if status port = -1 then []
    else port :: print_ports_from status portmask (port+1) fuel

/-- The ports whose status line print_port_status prints for a hub with
`nports` ports: the loop runs port numbers 1..nports. -/
def print_port_status_ports (status : Nat → Int) (portmask : Nat)
    (nports : Nat) : List Nat :=
  print_ports_from status portmask 1 nports

/-! ### String helpers (C library functions on char lists) -/

/-- C tolower restricted to ASCII as used by strcasecmp: uppercase letters
are shifted down by 32, all other bytes are unchanged. -/
def tolower (c : Char) : Char :=
  if 65 ≤ c.toNat ∧ c.toNat ≤ 90 then Char.ofNat (c.toNat + 32) else c

/-- strcasecmp(a, b) == 0: the two strings are equal up to case. -/
def strcaseeq (a b : List Char) : Bool :=
  a.map tolower == b.map tolower

/-- strncasecmp(a, b, n) == 0: the first n characters (or all of them,
for strings shorter than n) are equal up to case. -/
def strncaseeq (a b : List Char) (n : Nat) : Bool :=
  (a.take n).map tolower == (b.take n).map tolower

/-- strchr(s, c): the suffix of s starting at the first occurrence of c,
or none when c does not occur. -/
def strchr (s : List Char) (c : Char) : Option (List Char) :=
  match s with
  | [] => none
  | d :: rest => if d = c then some (d :: rest) else strchr rest c

/-! ### Hub registry data model -/

/-- struct hub_info from src/usb.h (the libusb_device pointer is dropped;
it plays no role in the verified logic). -/
structure hub_info where
  bcd_usb : Nat
  nports : Nat
  ppps : Bool
  actionable : Bool
  vendor : List Char
  location : List Char
  description : List Char
deriving DecidableEq

/-- The fields of hub_info that get_hub_info fills on success (rc == 0):
bcd_usb, port count, the raw 16-bit wHubCharacteristics word it decodes
into ppps, the vendor id string and the location string. -/
structure ghi_result where
  bcd_usb : Nat
  nports : Nat
  wHubCharacteristics : Nat
  vendor : List Char
  location : List Char
deriving DecidableEq

/-- One enumerated libusb device as seen by the scan loop of
usb_find_hubs: the libusb_get_device_descriptor return code and the
bDeviceClass it reports, the outcome of get_hub_info (none models a
nonzero return code, in which case the bzero'd info is left with
ppps == 0), and the description from get_device_description. -/
structure scan_device where
  desc_rc : Int
  bDeviceClass : Nat
  hub : Option ghi_result
  description : List Char
deriving DecidableEq

/-- The filter block of usb_find_hubs: actionable starts at 1; a non-empty
location filter clears it unless strcasecmp matches exactly; a non-empty
vendor filter clears it unless strncasecmp matches on the filter's
length. -/
def apply_filters (location vendor : List Char) (info : hub_info) :
    hub_info :=
  let info1 := { info with actionable := true }
  let info2 :=
    if location.length > 0 then
      if strcaseeq location info1.location then info1
      else { info1 with actionable := false }
    else info1
  if vendor.length > 0 then
    if strncaseeq vendor info2.vendor vendor.length then info2
    else { info2 with actionable := false }
  else info2

/-- One iteration of the scan loop of usb_find_hubs over a device.
State: (hubs registry so far, perm_ok flag). A device whose descriptor
read succeeded with a non-hub class is skipped; a failing get_hub_info
clears perm_ok and inserts nothing (the bzero'd info has ppps == 0);
a successful get_hub_info yields a record that is inserted (after the
filters run) iff its decoded ppps is set and the registry is not full. -/
def scan_step (location vendor : List Char) (st : List hub_info × Bool)
    (d : scan_device) : List hub_info × Bool :=
  if d.desc_rc = 0 ∧ d.bDeviceClass ≠ LIBUSB_CLASS_HUB then st
  else
    match d.hub with
    | none => (st.1, false)
    | some g =>
      let info : hub_info :=
        { bcd_usb := g.bcd_usb
          nports := g.nports
          ppps := get_hub_info_ppps g.wHubCharacteristics
          actionable := false
          vendor := g.vendor
          location := g.location
          description := d.description }
      if info.ppps then
        if st.1.length < MAX_HUBS then
          (st.1 ++ [apply_filters location vendor info], st.2)
        else st
      else st

/-- The discovery/filter loop of usb_find_hubs: builds the registry and
the perm_ok flag from the enumerated device snapshot. -/
def usb_scan (location vendor : List Char) (devs : List scan_device) :
    List hub_info × Bool :=
  devs.foldl (scan_step location vendor) ([], true)

/-! ### Dual-hub correlator -/

/-- The inner dual-search loop of usb_find_hubs for the hub `hi` found at
index `i`: scanning candidates from index `j` with provisional match `m`.
A candidate must be at another index, have the opposite protocol
generation and share the first 4 vendor characters; the first
not-yet-actionable such candidate is kept provisionally, and a candidate
whose location suffix from the first dash matches exactly (case
insensitively) wins outright and stops the search. -/
def find_dual (hi : hub_info) (i : Nat) :
    Nat → Option Nat → List hub_info → Option Nat
  | _, m, [] => m
  | j, m, hj :: rest =>
    if j = i then find_dual hi i (j+1) m rest
    else if decide (hj.bcd_usb < USB_SS_BCD) = decide (hi.bcd_usb < USB_SS_BCD)
    then find_dual hi i (j+1) m rest
    else if ¬ strncaseeq hi.vendor hj.vendor 4 = true then
      find_dual hi i (j+1) m rest
    else
      let m2 := if m = none ∧ hj.actionable = false then some j else m
      match strchr hi.location '-', strchr hj.location '-' with
      | some p1, some p2 =>
        if strcaseeq p1 p2 then some j else find_dual hi i (j+1) m2 rest
      | _, _ => find_dual hi i (j+1) m2 rest

/-- hubs[m].actionable = 1: promote the record at index m. -/
def promote : List hub_info → Nat → List hub_info
  | [], _ => []
  | h :: t, 0 => { h with actionable := true } :: t
  | h :: t, m+1 => h :: promote t m

/-- One iteration (index i) of the counting/matching loop of
usb_find_hubs. State: (registry, hub_phys_count). A non-actionable record
is skipped; an actionable one increments the count iff it is a USB2
persona or exact mode is set; in exact mode the dual search is skipped
entirely, otherwise a found dual is promoted to actionable. -/
def correlate_step (exact : Bool) (st : List hub_info × Nat) (i : Nat) :
    List hub_info × Nat :=
  match st.1[i]? with
  | none => st
  | some hi =>
    if hi.actionable = false then st
    else
      ((if exact then st.1
        else
          match find_dual hi i 0 none st.1 with
          | some m => promote st.1 m
          | none => st.1),
       (if hi.bcd_usb < USB_SS_BCD ∨ exact = true then st.2 + 1 else st.2))

/-- The counting/matching loop of usb_find_hubs from index `i` with `fuel`
indices still to visit. -/
def correlate_from (exact : Bool) :
    Nat → Nat → List hub_info × Nat → List hub_info × Nat
  | _, 0, st => st
  | i, fuel+1, st => correlate_from exact (i+1) fuel (correlate_step exact st i)

/-- The whole counting/matching pass of usb_find_hubs: visits every index
of the registry in order, starting with hub_phys_count = 0. -/
def correlate (exact : Bool) (hs : List hub_info) : List hub_info × Nat :=
  correlate_from exact 0 hs.length (hs, 0)

/-- usb_find_hubs from src/usb.h: scans the device snapshot into the
registry, runs the correlation pass, and returns LIBUSB_ERROR_ACCESS when
perm_ok was cleared and hub_phys_count is 0, otherwise hub_phys_count.
The final registry is returned alongside. -/
def usb_find_hubs (location vendor : List Char) (exact : Bool)
    (devs : List scan_device) : Int × List hub_info :=
  let scanned := usb_scan location vendor devs
  let cor := correlate exact scanned.1
  if scanned.2 = false ∧ cor.2 = 0 then (LIBUSB_ERROR_ACCESS, cor.1)
  else ((cor.2 : Int), cor.1)

/-! ### Derived counts and spec-side predicates -/

/-- Number of actionable records whose persona is USB2 (bcd_usb below
USB_SS_BCD). -/
def count_usb2_actionable (hs : List hub_info) : Nat :=
  (hs.filter (fun h => h.actionable && decide (h.bcd_usb < USB_SS_BCD))).length

/-- Number of actionable records. -/
def count_actionable (hs : List hub_info) : Nat :=
  (hs.filter (fun h => h.actionable)).length

/-- A device on which the scan loop of usb_find_hubs clears perm_ok: it is
not skipped as a readable non-hub, and get_hub_info failed on it. -/
def hub_read_failed (d : scan_device) : Bool :=
  !(decide (d.desc_rc = 0) && decide (d.bDeviceClass ≠ LIBUSB_CLASS_HUB)) &&
    d.hub.isNone

/-- Case-insensitive string equality, spec side. -/
def ci_eq (a b : List Char) : Prop :=
  a.map tolower = b.map tolower

/-- Case-insensitive starts-with, spec side: the lowercased second string
begins with the lowercased first string. -/
def ci_starts (a b : List Char) : Prop :=
  (b.map tolower).take a.length = a.map tolower

/-- Field-wise ordering between hub records: all fields agree except that
actionable may have been promoted from false to true. -/
def hub_le (h h2 : hub_info) : Prop :=
  h2.bcd_usb = h.bcd_usb ∧ h2.nports = h.nports ∧ h2.ppps = h.ppps ∧
  h2.vendor = h.vendor ∧ h2.location = h.location ∧
  h2.description = h.description ∧
  (h.actionable = true → h2.actionable = true)

/-! ### Concrete sample registries -/

/-- A USB2 hub persona that the filters left non-actionable, located at
bus path "2-5", same vendor id 2109 as hub3_sample. -/
def hub2_sample : hub_info :=
  { bcd_usb := 0x0210, nports := 4, ppps := true, actionable := false,
    vendor := "2109:0813".data, location := "2-5".data, description := [] }

/-- A USB3 hub persona that is actionable after filtering, located at
bus path "1-1". -/
def hub3_sample : hub_info :=
  { bcd_usb := 0x0300, nports := 4, ppps := true, actionable := true,
    vendor := "2109:2813".data, location := "1-1".data, description := [] }

/-- A device whose descriptor read fails (get_hub_info returns an
error), as enumerated by the scan loop. -/
def dev_fail : scan_device :=
  { desc_rc := -1, bDeviceClass := 0, hub := none, description := [] }

/-- A well-behaved hub device: class hub, readable descriptors,
characteristics word 0x0009 (per-port LPSM, per-port OCPM). -/
def dev_ok : scan_device :=
  { desc_rc := 0, bDeviceClass := 9,
    hub := some { bcd_usb := 0x0210, nports := 4,
                  wHubCharacteristics := 0x0009,
                  vendor := "2109:0813".data, location := "1-2".data },
    description := [] }

/-- A hub device whose vendor id string is "1A2B:0002". -/
def dev_vendor_sample : scan_device :=
  { desc_rc := 0, bDeviceClass := 9,
    hub := some { bcd_usb := 0x0210, nports := 4,
                  wHubCharacteristics := 0x0009,
                  vendor := "1A2B:0002".data, location := "1-2".data },
    description := [] }

/-- A USB2 hub device with vendor id 2109 at location "2-5". -/
def dev_usb2_sample : scan_device :=
  { desc_rc := 0, bDeviceClass := 9,
    hub := some { bcd_usb := 0x0210, nports := 4,
                  wHubCharacteristics := 9,
                  vendor := "2109:0813".data, location := "2-5".data },
    description := [] }

/-- A USB3 hub device with vendor id 2109 at location "1-1". -/
def dev_usb3_sample : scan_device :=
  { desc_rc := 0, bDeviceClass := 9,
    hub := some { bcd_usb := 0x0300, nports := 4,
                  wHubCharacteristics := 9,
                  vendor := "2109:2813".data, location := "1-1".data },
    description := [] }

/-! ### Bit-arithmetic helpers -/

/-- Masking with 3 extracts the value of bits 1:0. -/
theorem land_three (w : Nat) : w &&& 3 = w % 4 := by
  have h := Nat.and_pow_two_sub_one_eq_mod w 2
  norm_num at h
  omega

/-- Masking with 0x18 only depends on the low five bits. -/
theorem land_24_mod32 (w : Nat) : w &&& 24 = w % 32 &&& 24 := by
  have h31 : w &&& 31 = w % 32 := by
    have h := Nat.and_pow_two_sub_one_eq_mod w 5
    norm_num at h
    omega
  have h2 : (31 : Nat) &&& 24 = 24 := by decide
  rw [← h31, Nat.land_assoc w 31 24, h2]

/-- On five-bit values, the masked OCPM field being 8 or 0 is the same as
the bits 4:3 field being 1 or 0. -/
theorem ocpm_bits (r : Nat) (hr : r < 32) :
    (r &&& 24 = 8 ∨ r &&& 24 = 0) ↔ (r / 8 % 4 = 0 ∨ r / 8 % 4 = 1) := by
  interval_cases r <;> decide

/-- C3: for every 16-bit hub characteristics word, get_hub_info sets
power_switching_supported (ppps) to true if and only if the
power-switching bits (bits 1:0, value w % 4) equal 01 (per-port) and the
over-current bits (bits 4:3, value w / 8 % 4) are 00 (ganged) or
01 (per-port); every other combination of those bits gives false. -/
theorem C3_ppps_decode (w : Nat) (hw : w < 65536) :
    get_hub_info_ppps w = true ↔
      w % 4 = 1 ∧ (w / 8 % 4 = 0 ∨ w / 8 % 4 = 1) := by
  have hr : w % 32 < 32 := Nat.mod_lt _ (by norm_num)
  have hb := ocpm_bits (w % 32) hr
  have hd : w % 32 / 8 % 4 = w / 8 % 4 := by omega
  rw [hd] at hb
  have e1 : w % 256 &&& 3 = w % 4 := by rw [land_three]; omega
  have e2 : w % 256 &&& 24 = w % 32 &&& 24 := by
    rw [land_24_mod32 (w % 256)]
    have : w % 256 % 32 = w % 32 := by omega
    rw [this]
  unfold get_hub_info_ppps
  simp only [HUB_CHAR_LPSM, HUB_CHAR_OCPM, HUB_CHAR_INDV_PORT_LPSM,
    HUB_CHAR_INDV_PORT_OCPM, HUB_CHAR_COMMON_OCPM, e1, e2,
    Bool.and_eq_true, Bool.or_eq_true, decide_eq_true_eq]
  tauto

/-- Witness for C3 at the concrete characteristics word 0x0009
(per-port power switching, per-port over-current protection). -/
theorem C3_ppps_decode_witness : get_hub_info_ppps 9 = true :=
  (C3_ppps_decode 9 (by norm_num)).mpr (by norm_num)

/-- A 16-bit word is determined by its link-state field and the rest. -/
theorem word_split (v : Nat) (hv : v < 65536)
    (h1 : v &&& 0x01e0 = 0x0080) (h2 : v &&& 0xfe1f = 0) : v = 0x80 := by
  have hm : v &&& 65535 = v % 65536 := by
    have h := Nat.and_pow_two_sub_one_eq_mod v 16
    norm_num at h
    omega
  have hsplit : (65535 : Nat) = 0x01e0 ||| 0xfe1f := by decide
  have hd := Nat.and_or_distrib_left v 0x01e0 0xfe1f
  have : v % 65536 = v := Nat.mod_eq_of_lt hv
  rw [this] at hm
  rw [← hm, hsplit, hd, h1, h2]
  decide

/-- C9: port status decodes to "off" if and only if: for a hub with
usb_version_bcd < 0x0300 the 16-bit status word is exactly 0, and for a
hub with usb_version_bcd >= 0x0300 the link-state field (bits 5..8,
mask USB_PORT_STAT_LINK_STATE) equals SS.Disabled and no bit outside the
link-state field is set. The decoder receives the int16_t produced by
get_port_status from the raw word w. -/
theorem C9_off_decode (bcd_usb w : Nat) (hw : w < 65536) :
    print_port_status_off bcd_usb (toSigned16 w) = true ↔
      (if bcd_usb < 0x0300 then w = 0
       else w &&& USB_PORT_STAT_LINK_STATE = USB_SS_PORT_LS_SS_DISABLED ∧
            w &&& 0xfe1f = 0) := by
  unfold print_port_status_off toSigned16 USB_SS_BCD
  split
  · simp only [decide_eq_true_eq]
    split
    · constructor
      · intro h
        omega
      · intro h
        omega
    · constructor
      · intro h
        omega
      · intro h
        omega
  · simp only [decide_eq_true_eq, USB_SS_PORT_LS_SS_DISABLED,
      USB_PORT_STAT_LINK_STATE]
    constructor
    · intro h
      have hv : w = 0x80 := by split at h <;> omega
      subst hv
      exact ⟨by decide, by decide⟩
    · intro h
      have hv : w = 0x80 := word_split w hw h.1 h.2
      subst hv
      norm_num

/-- Witness for C9 at bcd_usb 0x0300 and status word 0x0080. -/
theorem C9_off_decode_witness :
    print_port_status_off 0x0300 (toSigned16 0x0080) = true :=
  (C9_off_decode 0x0300 0x0080 (by norm_num)).mpr (by decide)

/-- C10: get_port_status funnels the status word through the signed
int16_t field wPortStatus: a successful transfer whose raw word has
bit 15 set produces a negative return value, one that is exactly what the
same call returns for a failed transfer with that value as its error
code, and the raw word 0xFFFF produces -1, the very value returned for a
NULL device handle. -/
theorem C10_signed_status (w : Nat) (hw : w < 65536)
    (hbit : w.testBit 15 = true) :
    get_port_status (some ()) (ControlTransfer.ok w) < 0 ∧
    get_port_status (some ())
        (ControlTransfer.err (get_port_status (some ()) (ControlTransfer.ok w)))
      = get_port_status (some ()) (ControlTransfer.ok w) ∧
    get_port_status (some ()) (ControlTransfer.ok 0xFFFF) = -1 ∧
    (∀ t : ControlTransfer, get_port_status none t = -1) := by
  have hge : 32768 ≤ w := by
    rw [Nat.testBit_to_div_mod] at hbit
    simp only [decide_eq_true_eq] at hbit
    norm_num at hbit
    omega
  refine ⟨?_, rfl, by decide, fun t => rfl⟩
  show toSigned16 w < 0
  unfold toSigned16
  split
  · omega
  · omega

/-- Witness for C10 at the raw status word 0x8000. -/
theorem C10_signed_status_witness :
    get_port_status (some ()) (ControlTransfer.ok 0x8000) < 0 :=
  (C10_signed_status 0x8000 (by norm_num) (by decide)).1

/-- C6 counterexample: on a 2-port hub with no port mask, a get_port_status
result of -1 on port 1 stops the whole loop, so port 2 — whose own status
read succeeds — is never processed. The claim that a transfer failure on
one port never aborts processing of the remaining ports is false. -/
theorem C6_counterexample :
    (fun p => if p = 1 then (-1 : Int) else 256) 2 ≠ -1 ∧
    2 ∉ print_port_status_ports
        (fun p => if p = 1 then (-1 : Int) else 256) 0 2 := by
  decide

/-- Once the loop of print_port_status reaches a selected port whose
get_port_status result is -1, no port from there on is processed. -/
theorem print_ports_from_break (status : Nat → Int) (portmask : Nat)
    (p : Nat) (hsel : ¬(portmask > 0 ∧ portmask &&& (1 <<< (p - 1)) = 0))
    (hfail : status p = -1) :
    ∀ fuel start q, start ≤ p → p < start + fuel → p ≤ q →
      q ∉ print_ports_from status portmask start fuel := by
  intro fuel
  induction fuel with
  | zero =>
    intro start q h1 h2 _
    omega
  | succ n ih =>
    intro start q h1 h2 hq
    unfold print_ports_from
    split
    · have hne : start ≠ p := by
        intro he
        subst he
        exact hsel (by assumption)
      exact ih (start+1) q (by omega) (by omega) hq
    · split
      · simp
      · intro hmem
        have hne : start ≠ p := by
          intro he
          subst he
          exact (by assumption : ¬ status start = -1) hfail
        rcases List.mem_cons.mp hmem with he | hrest
        · omega
        · exact ih (start+1) q (by omega) (by omega) hq hrest

/-- C6 (amended): when get_port_status yields -1 for a selected port
during the per-hub status display, the failure is logged and the loop
over that hub's ports is aborted: neither that port nor any later port of
the hub is processed. (The code uses break, not continue; error codes
other than -1 are not detected at all.) -/
theorem C6_port_error_break (status : Nat → Int) (portmask nports p q : Nat)
    (hp1 : 1 ≤ p) (hpn : p ≤ nports)
    (hsel : ¬(portmask > 0 ∧ portmask &&& (1 <<< (p - 1)) = 0))
    (hfail : status p = -1) (hq : p ≤ q) :
    q ∉ print_port_status_ports status portmask nports :=
  print_ports_from_break status portmask p hsel hfail nports 1 q hp1
    (by omega) hq

/-- Witness for the amended C6: port 1 of a 2-port hub fails with -1, so
port 2 is not processed. -/
theorem C6_port_error_break_witness :
    2 ∉ print_port_status_ports
        (fun p => if p = 1 then (-1 : Int) else 256) 0 2 :=
  C6_port_error_break (fun p => if p = 1 then (-1 : Int) else 256) 0 2 1 2
    (by decide) (by decide) (by decide) (by decide) (by decide)

/-! ### Helper lemmas about the correlator state -/

/-- hub_le is reflexive. -/
theorem hub_le_refl (h : hub_info) : hub_le h h :=
  ⟨rfl, rfl, rfl, rfl, rfl, rfl, fun a => a⟩

/-- Promoting actionable preserves hub_le. -/
theorem hub_le_promote {h h2 : hub_info} (hle : hub_le h h2) :
    hub_le h { h2 with actionable := true } := by
  obtain ⟨a, b, c, d, e, f, _⟩ := hle
  exact ⟨a, b, c, d, e, f, fun _ => rfl⟩

/-- Every registry is hub_le-related to itself. -/
theorem forall2_hub_le_refl (l : List hub_info) : List.Forall₂ hub_le l l :=
  List.forall₂_same.mpr (fun x _ => hub_le_refl x)

/-- promote only raises actionable flags: it preserves hub_le. -/
theorem forall2_promote {xs ys : List hub_info}
    (hf : List.Forall₂ hub_le xs ys) (m : Nat) :
    List.Forall₂ hub_le xs (promote ys m) := by
  induction hf generalizing m with
  | nil => exact List.Forall₂.nil
  | cons h1 h2 ih =>
    cases m with
    | zero => exact List.Forall₂.cons (hub_le_promote h1) h2
    | succ m => exact List.Forall₂.cons h1 (ih m)

/-- Index lookup transported along Forall₂, left to right. -/
theorem forall2_get_left {xs ys : List hub_info}
    (hf : List.Forall₂ hub_le xs ys) :
    ∀ (i : Nat) (x : hub_info), xs[i]? = some x → ∃ y, ys[i]? = some y ∧ hub_le x y := by
  induction hf with
  | nil => intro i x hx; simp at hx
  | cons h1 h2 ih =>
    intro i x hx
    cases i with
    | zero =>
      simp only [List.getElem?_cons_zero, Option.some.injEq] at hx
      exact ⟨_, List.getElem?_cons_zero, hx ▸ h1⟩
    | succ n =>
      simp only [List.getElem?_cons_succ] at hx ⊢
      exact ih n x hx

/-- Index lookup transported along Forall₂, right to left. -/
theorem forall2_get_right {xs ys : List hub_info}
    (hf : List.Forall₂ hub_le xs ys) :
    ∀ (i : Nat) (y : hub_info), ys[i]? = some y → ∃ x, xs[i]? = some x ∧ hub_le x y := by
  induction hf with
  | nil => intro i y hy; simp at hy
  | cons h1 h2 ih =>
    intro i y hy
    cases i with
    | zero =>
      simp only [List.getElem?_cons_zero, Option.some.injEq] at hy
      exact ⟨_, List.getElem?_cons_zero, hy ▸ h1⟩
    | succ n =>
      simp only [List.getElem?_cons_succ] at hy ⊢
      exact ih n y hy

/-- Splitting one element off a drop-take window. -/
theorem drop_take_succ {α : Type} (l : List α) (i fuel : Nat) :
    (l.drop i).take (fuel+1) =
      (match l[i]? with
       | some x => x :: ((l.drop (i+1)).take fuel)
       | none => []) := by
  induction l generalizing i with
  | nil => simp
  | cons a t ih =>
    cases i with
    | zero => simp
    | succ n => simpa using ih n

/-- Unfolding count_usb2_actionable over a cons. -/
theorem c2a_cons (x : hub_info) (l : List hub_info) :
    count_usb2_actionable (x :: l) =
      (if x.actionable && decide (x.bcd_usb < USB_SS_BCD) then 1 else 0) +
        count_usb2_actionable l := by
  unfold count_usb2_actionable
  rw [List.filter_cons]
  split <;> simp <;> omega

/-- count_usb2_actionable is monotone along hub_le. -/
theorem c2a_mono {xs ys : List hub_info}
    (hf : List.Forall₂ hub_le xs ys) :
    count_usb2_actionable xs ≤ count_usb2_actionable ys := by
  induction hf with
  | nil => exact Nat.le_refl _
  | cons h1 h2 ih =>
    rename_i x y la lb
    rw [c2a_cons, c2a_cons]
    obtain ⟨hbcd, -, -, -, -, -, hact⟩ := h1
    by_cases hc : (x.actionable && decide (x.bcd_usb < USB_SS_BCD)) = true
    · simp only [Bool.and_eq_true, decide_eq_true_eq] at hc
      have hc2 : (y.actionable && decide (y.bcd_usb < USB_SS_BCD)) = true := by
        simp only [Bool.and_eq_true, decide_eq_true_eq]
        exact ⟨hact hc.1, by omega⟩
      rw [if_pos hc2]
      split <;> omega
    · rw [if_neg hc]
      split <;> omega

/-- A take of a list counts no more than the whole list. -/
theorem c2a_take_le (l : List hub_info) (k : Nat) :
    count_usb2_actionable (l.take k) ≤ count_usb2_actionable l := by
  unfold count_usb2_actionable
  exact List.Sublist.length_le (List.Sublist.filter _ (List.take_sublist k l))

/-- Counting one more element of a take window. -/
theorem c2a_take_succ (l : List hub_info) (k : Nat) :
    count_usb2_actionable (l.take (k+1)) =
      count_usb2_actionable (l.take k) +
        (match l[k]? with
         | some x => if x.actionable && decide (x.bcd_usb < USB_SS_BCD)
                     then 1 else 0
         | none => 0) := by
  rw [List.take_succ]
  cases h : l[k]? with
  | none =>
    simp [count_usb2_actionable]
  | some x =>
    simp only [Option.toList_some]
    unfold count_usb2_actionable
    rw [List.filter_append, List.length_append, List.filter_cons,
      List.filter_nil]
    split
    · simp
    · simp

/-- A correlator step leaves the registry alone or promotes one index. -/
theorem correlate_step_list (exact : Bool) (st : List hub_info × Nat)
    (i : Nat) :
    (correlate_step exact st i).1 = st.1 ∨
    ∃ m, (correlate_step exact st i).1 = promote st.1 m := by
  unfold correlate_step
  split
  · exact Or.inl rfl
  · split
    · exact Or.inl rfl
    · dsimp only
      split
      · exact Or.inl rfl
      · split
        · exact Or.inr ⟨_, rfl⟩
        · exact Or.inl rfl

/-- A correlator step preserves hub_le against any base registry. -/
theorem correlate_step_forall2 {base : List hub_info}
    {st : List hub_info × Nat} (hf : List.Forall₂ hub_le base st.1)
    (exact : Bool) (i : Nat) :
    List.Forall₂ hub_le base (correlate_step exact st i).1 := by
  rcases correlate_step_list exact st i with h | ⟨m, h⟩
  · rw [h]; exact hf
  · rw [h]; exact forall2_promote hf m

/-- A correlator step never decreases hub_phys_count. -/
theorem correlate_step_cnt_le (exact : Bool) (st : List hub_info × Nat)
    (i : Nat) : st.2 ≤ (correlate_step exact st i).2 := by
  unfold correlate_step
  split
  · exact Nat.le_refl _
  · split
    · exact Nat.le_refl _
    · dsimp only
      split <;> omega

/-- A correlator step counts a visited record that is actionable and a
USB2 persona (or any actionable record in exact mode). -/
theorem correlate_step_cnt_incr (exact : Bool) (st : List hub_info × Nat)
    (i : Nat) (y : hub_info) (hy : st.1[i]? = some y)
    (hact : y.actionable = true)
    (hcond : y.bcd_usb < USB_SS_BCD ∨ exact = true) :
    (correlate_step exact st i).2 = st.2 + 1 := by
  unfold correlate_step
  split
  · rename_i heq; rw [hy] at heq; cases heq
  · rename_i hi heq
    rw [hy] at heq
    injection heq with heq
    subst heq
    split
    · rename_i hfalse; rw [hact] at hfalse; cases hfalse
    · rfl

/-- A correlator step adds at most the count contribution of the record
it visits. -/
theorem correlate_step_cnt_ub (st : List hub_info × Nat) (i : Nat) :
    (correlate_step false st i).2 ≤ st.2 +
      (match st.1[i]? with
       | some y => if y.actionable && decide (y.bcd_usb < USB_SS_BCD)
                   then 1 else 0
       | none => 0) := by
  unfold correlate_step
  split
  · rename_i heq
    rw [heq]
    dsimp only
    omega
  · rename_i hi heq
    rw [heq]
    dsimp only
    by_cases hact : hi.actionable = true
    · by_cases hbcd : hi.bcd_usb < USB_SS_BCD
      · simp [hact, hbcd]
      · simp [hact, hbcd]
    · have hf : hi.actionable = false := by
        cases h : hi.actionable
        · rfl
        · exact absurd h hact
      simp [hf]

/-! ### Whole-pass lemmas for the correlator -/

/-- The counting/matching loop preserves hub_le against a base registry. -/
theorem correlate_from_forall2 (exact : Bool) (base : List hub_info) :
    ∀ (fuel i : Nat) (st : List hub_info × Nat),
      List.Forall₂ hub_le base st.1 →
      List.Forall₂ hub_le base (correlate_from exact i fuel st).1 := by
  intro fuel
  induction fuel with
  | zero => intro i st h; exact h
  | succ n ih =>
    intro i st h
    exact ih (i+1) _ (correlate_step_forall2 h exact i)

/-- The whole correlation pass only promotes records: it relates the
input registry to the output registry field-by-field, possibly raising
actionable flags. -/
theorem correlate_forall2 (exact : Bool) (hs : List hub_info) :
    List.Forall₂ hub_le hs (correlate exact hs).1 :=
  correlate_from_forall2 exact hs hs.length 0 (hs, 0)
    (forall2_hub_le_refl hs)

/-- The count is never decreased by the rest of the loop. -/
theorem correlate_from_cnt_le (exact : Bool) :
    ∀ (fuel i : Nat) (st : List hub_info × Nat),
      st.2 ≤ (correlate_from exact i fuel st).2 := by
  intro fuel
  induction fuel with
  | zero => intro i st; exact Nat.le_refl _
  | succ n ih =>
    intro i st
    exact Nat.le_trans (correlate_step_cnt_le exact st i) (ih (i+1) _)

/-- Lower bound: the loop counts at least every record of the base
window that is actionable (in the base) and USB2. -/
theorem correlate_from_count_lb (exact : Bool) (base : List hub_info) :
    ∀ (fuel i : Nat) (st : List hub_info × Nat),
      List.Forall₂ hub_le base st.1 →
      st.2 + count_usb2_actionable ((base.drop i).take fuel) ≤
        (correlate_from exact i fuel st).2 := by
  intro fuel
  induction fuel with
  | zero =>
    intro i st _
    simp [correlate_from, count_usb2_actionable]
  | succ n ih =>
    intro i st hf
    rw [drop_take_succ]
    cases hb : base[i]? with
    | none =>
      dsimp only
      have h1 := ih (i+1) (correlate_step exact st i)
        (correlate_step_forall2 hf exact i)
      have h2 := correlate_step_cnt_le exact st i
      have h3 : count_usb2_actionable ([] : List hub_info) = 0 := rfl
      unfold correlate_from
      omega
    | some x =>
      dsimp only
      rw [c2a_cons]
      have h1 := ih (i+1) (correlate_step exact st i)
        (correlate_step_forall2 hf exact i)
      unfold correlate_from
      by_cases hq : (x.actionable && decide (x.bcd_usb < USB_SS_BCD)) = true
      · simp only [Bool.and_eq_true, decide_eq_true_eq] at hq
        obtain ⟨y, hy, hle⟩ := forall2_get_left hf i x hb
        obtain ⟨hbcd, -, -, -, -, -, hact⟩ := hle
        have h2 := correlate_step_cnt_incr exact st i y hy (hact hq.1)
          (Or.inl (by omega))
        rw [if_pos]
        · omega
        · simp [hq.1, hq.2]
      · rw [if_neg hq]
        have h2 := correlate_step_cnt_le exact st i
        omega

/-- Upper bound: in non-exact mode the count never exceeds the number of
USB2 records actionable in the final registry prefix already visited. -/
theorem correlate_from_count_ub :
    ∀ (fuel i : Nat) (st : List hub_info × Nat),
      st.2 ≤ count_usb2_actionable (st.1.take i) →
      (correlate_from false i fuel st).2 ≤
        count_usb2_actionable
          ((correlate_from false i fuel st).1.take (i+fuel)) := by
  intro fuel
  induction fuel with
  | zero =>
    intro i st h
    simpa [correlate_from] using h
  | succ n ih =>
    intro i st h
    have h3 : count_usb2_actionable (st.1.take (i+1)) ≤
        count_usb2_actionable ((correlate_step false st i).1.take (i+1)) := by
      rcases correlate_step_list false st i with he | ⟨m, he⟩
      · rw [he]
      · rw [he]
        exact c2a_mono (List.forall₂_take _
          (forall2_promote (forall2_hub_le_refl st.1) m))
    have hstep : (correlate_step false st i).2 ≤
        count_usb2_actionable ((correlate_step false st i).1.take (i+1)) := by
      have h1 := correlate_step_cnt_ub st i
      have h2 := c2a_take_succ st.1 i
      omega
    have hrec := ih (i+1) (correlate_step false st i) hstep
    unfold correlate_from
    have harith : i + 1 + n = i + (n + 1) := by omega
    rw [← harith]
    exact hrec

/-- In exact mode, a correlator step leaves the registry untouched and
counts exactly the actionable records. -/
theorem correlate_step_exact (st : List hub_info × Nat) (i : Nat) :
    correlate_step true st i =
      (st.1, st.2 + (match st.1[i]? with
                     | some hi => if hi.actionable then 1 else 0
                     | none => 0)) := by
  unfold correlate_step
  cases hb : st.1[i]? with
  | none => dsimp only; rw [Prod.mk.injEq]; exact ⟨rfl, rfl⟩
  | some hi =>
    dsimp only
    by_cases hact : hi.actionable = true
    · simp [hact]
    · have hf : hi.actionable = false := by
        cases h : hi.actionable
        · rfl
        · exact absurd h hact
      simp [hf]

/-- Unfolding count_actionable over a cons. -/
theorem ca_cons (x : hub_info) (l : List hub_info) :
    count_actionable (x :: l) =
      (if x.actionable then 1 else 0) + count_actionable l := by
  unfold count_actionable
  rw [List.filter_cons]
  split <;> simp <;> omega

/-- In exact mode the loop never modifies the registry and adds the
number of actionable records of the remaining window to the count. -/
theorem correlate_from_exact :
    ∀ (fuel i : Nat) (st : List hub_info × Nat),
      correlate_from true i fuel st =
        (st.1, st.2 + count_actionable ((st.1.drop i).take fuel)) := by
  intro fuel
  induction fuel with
  | zero =>
    intro i st
    simp [correlate_from, count_actionable]
  | succ n ih =>
    intro i st
    unfold correlate_from
    rw [correlate_step_exact, ih, drop_take_succ]
    dsimp only
    cases hb : st.1[i]? with
    | none =>
      have hlen : st.1.length ≤ i := List.getElem?_eq_none_iff.mp hb
      have hnil : st.1.drop (i+1) = [] := List.drop_eq_nil_of_le (by omega)
      rw [hnil]
      simp [count_actionable]
    | some x =>
      dsimp only
      rw [ca_cons]
      rw [Prod.mk.injEq]
      refine ⟨rfl, by omega⟩

/-- Lower bound for the full pass: every record already actionable after
filtering whose persona is USB2 gets counted. -/
theorem correlate_count_lb (exact : Bool) (hs : List hub_info) :
    count_usb2_actionable hs ≤ (correlate exact hs).2 := by
  have h := correlate_from_count_lb exact hs hs.length 0 (hs, 0)
    (forall2_hub_le_refl hs)
  simpa using h

/-- Upper bound for the full pass in non-exact mode: only records that
end up actionable and USB2 are ever counted. -/
theorem correlate_count_ub (hs : List hub_info) :
    (correlate false hs).2 ≤
      count_usb2_actionable (correlate false hs).1 := by
  have h := correlate_from_count_ub hs.length 0 (hs, 0)
    (by simp [count_usb2_actionable])
  rw [Nat.zero_add] at h
  have hlen : (correlate false hs).1.length = hs.length :=
    ((correlate_forall2 false hs).length_eq).symm
  have htake : (correlate false hs).1.take hs.length = (correlate false hs).1 :=
    List.take_of_length_le (Nat.le_of_eq hlen)
  unfold correlate at htake ⊢
  rw [htake] at h
  exact h

/-- C1 counterexample: with the location filter "1-1", the USB2 persona
at "2-5" is filtered out and stored before its actionable USB3 partner,
so the counting pass visits it while it is still non-actionable and only
afterwards promotes it: usb_find_hubs returns 0 although the final
registry holds one actionable record with usb_version_bcd < 0x0300. The
claimed equality is false. -/
theorem C1_counterexample :
    (usb_find_hubs "1-1".data [] false
      [dev_usb2_sample, dev_usb3_sample]).1 = 0 ∧
    count_usb2_actionable
      (usb_find_hubs "1-1".data [] false
        [dev_usb2_sample, dev_usb3_sample]).2 = 1 := by
  constructor
  · rfl
  · rfl

/-- C1 (amended): in non-exact mode the physical hub count lies between
the number of actionable USB2 records after filtering and the number of
actionable USB2 records after correlation completes; the upper bound is
not always attained, because a USB2 record promoted by a USB3 partner at
a later registry index is never counted. -/
theorem C1_physical_count_bounds (hs : List hub_info) :
    count_usb2_actionable hs ≤ (correlate false hs).2 ∧
    (correlate false hs).2 ≤
      count_usb2_actionable (correlate false hs).1 :=
  ⟨correlate_count_lb false hs, correlate_count_ub hs⟩

/-- C2 counterexample: a single actionable USB3 record is not counted
toward hub_phys_count in non-exact mode, contradicting the claim that
every actionable hub of generation USB3 or later is counted directly. -/
theorem C2_counterexample :
    hub3_sample.actionable = true ∧ USB_SS_BCD ≤ hub3_sample.bcd_usb ∧
    (correlate false [hub3_sample]).2 = 0 := by
  refine ⟨rfl, ?_, rfl⟩
  decide

/-- C2 (amended): during the correlation pass every hub actionable after
filtering whose protocol generation is USB2 (bcd_usb < 0x0300) is counted
toward physical_hub_count, as is every actionable hub when the exact
mode flag is set; and when exact mode is set no dual-matching search is
performed, so the registry (in particular every actionable flag) after
correlation equals its state immediately after filtering while the count
is exactly the number of actionable records. -/
theorem C2_count_and_exact_mode (exact : Bool) (hs : List hub_info) :
    count_usb2_actionable hs ≤ (correlate exact hs).2 ∧
    correlate true hs = (hs, count_actionable hs) := by
  refine ⟨correlate_count_lb exact hs, ?_⟩
  unfold correlate
  rw [correlate_from_exact]
  simp

/-- C5 counterexample: running the correlation pass twice on the registry
[hub2_sample, hub3_sample] is not idempotent: the first run returns
physical count 0, the second run (on the registry the first produced)
returns 1. -/
theorem C5_counterexample :
    (correlate false [hub2_sample, hub3_sample]).2 = 0 ∧
    (correlate false (correlate false [hub2_sample, hub3_sample]).1).2
      = 1 := by
  constructor
  · rfl
  · rfl

/-- C5 (amended): the correlation pass is monotone rather than
idempotent: a second run preserves every field of every record of the
first run's registry and can only promote actionable flags further (and,
as the counterexample shows, the physical count of the second run can
differ from the first). -/
theorem C5_correlation_monotone (exact : Bool) (hs : List hub_info) :
    List.Forall₂ hub_le (correlate exact hs).1
      (correlate exact (correlate exact hs).1).1 :=
  correlate_forall2 exact (correlate exact hs).1

/-! ### Scan-loop lemmas and the return value -/

/-- Unfolding usb_find_hubs into its scan, correlation and error check. -/
theorem usb_find_hubs_eq (location vendor : List Char) (exact : Bool)
    (devs : List scan_device) :
    usb_find_hubs location vendor exact devs =
      (if (usb_scan location vendor devs).2 = false ∧
          (correlate exact (usb_scan location vendor devs).1).2 = 0
       then (LIBUSB_ERROR_ACCESS,
             (correlate exact (usb_scan location vendor devs).1).1)
       else (((correlate exact (usb_scan location vendor devs).1).2 : Int),
             (correlate exact (usb_scan location vendor devs).1).1)) := rfl

/-- The final registry returned by usb_find_hubs is the correlated one. -/
theorem usb_find_hubs_snd (location vendor : List Char) (exact : Bool)
    (devs : List scan_device) :
    (usb_find_hubs location vendor exact devs).2 =
      (correlate exact (usb_scan location vendor devs).1).1 := by
  rw [usb_find_hubs_eq]
  split
  · rfl
  · rfl

/-- One scan step clears perm_ok exactly on a failing device. -/
theorem scan_step_perm (location vendor : List Char)
    (st : List hub_info × Bool) (d : scan_device) :
    (scan_step location vendor st d).2 =
      (st.2 && !(hub_read_failed d)) := by
  unfold scan_step hub_read_failed
  split
  · rename_i hskip
    simp [hskip.1, hskip.2]
  · rename_i hnot
    have hb : (decide (d.desc_rc = 0) &&
        decide (d.bDeviceClass ≠ LIBUSB_CLASS_HUB)) = false := by
      by_cases h1 : d.desc_rc = 0
      · by_cases h2 : d.bDeviceClass ≠ LIBUSB_CLASS_HUB
        · exact absurd ⟨h1, h2⟩ hnot
        · simp [h2]
      · simp [h1]
    rw [hb]
    cases hh : d.hub with
    | none => simp
    | some g =>
      dsimp only [Option.isNone_some]
      split
      · split
        · simp
        · simp
      · simp

/-- perm_ok after the whole scan: it survives iff no device failed. -/
theorem usb_scan_perm_aux (location vendor : List Char)
    (devs : List scan_device) :
    ∀ st : List hub_info × Bool,
      (devs.foldl (scan_step location vendor) st).2 =
        (st.2 && !(devs.any hub_read_failed)) := by
  induction devs with
  | nil => intro st; simp
  | cons d rest ih =>
    intro st
    rw [List.foldl_cons, ih, scan_step_perm, List.any_cons]
    cases h1 : st.2 <;> cases h2 : hub_read_failed d <;> simp

/-- perm_ok of usb_scan is the negated any-failure flag. -/
theorem usb_scan_perm (location vendor : List Char)
    (devs : List scan_device) :
    (usb_scan location vendor devs).2 = !(devs.any hub_read_failed) := by
  have h := usb_scan_perm_aux location vendor devs ([], true)
  simpa [usb_scan] using h

/-- C4: usb_find_hubs returns the negative LIBUSB_ERROR_ACCESS code if
and only if get_hub_info failed on at least one scanned device and the
physical hub count came out 0; in every other case it returns the
non-negative physical hub count (possibly zero). -/
theorem C4_return_value (location vendor : List Char) (exact : Bool)
    (devs : List scan_device) :
    ((usb_find_hubs location vendor exact devs).1 < 0 ↔
      ((∃ d ∈ devs, hub_read_failed d = true) ∧
       (correlate exact (usb_scan location vendor devs).1).2 = 0)) ∧
    ((usb_find_hubs location vendor exact devs).1 < 0 →
      (usb_find_hubs location vendor exact devs).1 = LIBUSB_ERROR_ACCESS) ∧
    (¬((∃ d ∈ devs, hub_read_failed d = true) ∧
       (correlate exact (usb_scan location vendor devs).1).2 = 0) →
      (usb_find_hubs location vendor exact devs).1 =
        ((correlate exact (usb_scan location vendor devs).1).2 : Int)) := by
  have hex : (devs.any hub_read_failed = true) ↔
      ∃ d ∈ devs, hub_read_failed d = true := List.any_eq_true
  have hacc : LIBUSB_ERROR_ACCESS < 0 := by norm_num [LIBUSB_ERROR_ACCESS]
  rw [usb_find_hubs_eq, usb_scan_perm]
  cases ha : devs.any hub_read_failed with
  | true =>
    have hexx := hex.mp ha
    by_cases hz : (correlate exact (usb_scan location vendor devs).1).2 = 0
    · rw [if_pos ⟨rfl, hz⟩]
      dsimp only
      refine ⟨⟨fun _ => ⟨hexx, hz⟩, fun _ => hacc⟩, fun _ => rfl,
        fun hcon => absurd ⟨hexx, hz⟩ hcon⟩
    · rw [if_neg (fun hc => hz hc.2)]
      dsimp only
      refine ⟨⟨fun hlt => absurd hlt (by omega),
        fun hc => absurd hc.2 hz⟩,
        fun hlt => absurd hlt (by omega), fun _ => rfl⟩
  | false =>
    have hne : ¬∃ d ∈ devs, hub_read_failed d = true := by
      intro hc
      rw [hex.mpr hc] at ha
      cases ha
    rw [if_neg (fun hc => by
      have h1 := hc.1
      simp at h1)]
    dsimp only
    refine ⟨⟨fun hlt => absurd hlt (by omega),
      fun hc => absurd hc.1 hne⟩,
      fun hlt => absurd hlt (by omega), fun _ => rfl⟩

/-- Witness for C4: one failing device and no actionable hub makes
usb_find_hubs return a negative code. -/
theorem C4_return_value_witness :
    (usb_find_hubs [] [] false [dev_fail]).1 < 0 :=
  (C4_return_value [] [] false [dev_fail]).1.mpr
    ⟨⟨dev_fail, by decide, by decide⟩, by decide⟩

/-! ### Filter lemmas -/

/-- apply_filters only touches the actionable flag. -/
theorem apply_filters_fields (location vendor : List Char)
    (info : hub_info) :
    (apply_filters location vendor info).bcd_usb = info.bcd_usb ∧
    (apply_filters location vendor info).ppps = info.ppps ∧
    (apply_filters location vendor info).vendor = info.vendor ∧
    (apply_filters location vendor info).location = info.location := by
  unfold apply_filters
  dsimp only
  split_ifs <;> exact ⟨rfl, rfl, rfl, rfl⟩

/-- strncasecmp on the filter's own length is the case-insensitive
starts-with test. -/
theorem strncaseeq_starts (a b : List Char) :
    strncaseeq a b a.length = true ↔ ci_starts a b := by
  unfold strncaseeq ci_starts
  rw [List.take_length, beq_iff_eq, List.map_take]
  exact eq_comm

/-- strcasecmp matching is case-insensitive equality. -/
theorem strcaseeq_iff (a b : List Char) :
    strcaseeq a b = true ↔ ci_eq a b := by
  unfold strcaseeq ci_eq
  exact beq_iff_eq

/-- The actionable flag computed by apply_filters, in terms of the
spec-side predicates. -/
theorem apply_filters_actionable (location vendor : List Char)
    (info : hub_info) :
    ((apply_filters location vendor info).actionable = true ↔
      ((location = [] ∨ ci_eq location info.location) ∧
       (vendor = [] ∨ ci_starts vendor info.vendor))) := by
  unfold apply_filters
  dsimp only
  split_ifs with h1 h2 h3 h4 <;>
    (simp_all [strcaseeq_iff, strncaseeq_starts, List.length_eq_zero,
      ← List.length_eq_zero]
     try omega)

/-- Scan-loop induction principle: a property holds of every record in
the scanned registry if it holds of the starting records and of every
filtered record inserted for a device whose hub descriptor decoded with
PPPS set. -/
theorem usb_scan_mem_aux (location vendor : List Char)
    (devs : List scan_device) (P : hub_info → Prop) :
    ∀ st : List hub_info × Bool,
      (∀ h ∈ st.1, P h) →
      (∀ d g, d ∈ devs → d.hub = some g →
        get_hub_info_ppps g.wHubCharacteristics = true →
        P (apply_filters location vendor
            { bcd_usb := g.bcd_usb, nports := g.nports,
              ppps := get_hub_info_ppps g.wHubCharacteristics,
              actionable := false, vendor := g.vendor,
              location := g.location, description := d.description })) →
      ∀ h ∈ (devs.foldl (scan_step location vendor) st).1, P h := by
  induction devs with
  | nil =>
    intro st hst _ h hm
    exact hst h hm
  | cons d rest ih =>
    intro st hst hins h hm
    rw [List.foldl_cons] at hm
    refine ih (scan_step location vendor st d) ?_ ?_ h hm
    · intro x hx
      revert hx
      unfold scan_step
      split
      · exact fun hx => hst x hx
      · cases hh : d.hub with
        | none => exact fun hx => hst x hx
        | some g =>
          dsimp only
          split
          · split
            · intro hx
              rcases List.mem_append.mp hx with hx2 | hx2
              · exact hst x hx2
              · rw [List.mem_singleton] at hx2
                subst hx2
                exact hins d g (List.mem_cons_self d rest) hh (by assumption)
            · exact fun hx => hst x hx
          · exact fun hx => hst x hx
    · intro d2 g2 hd2 hg2 hp2
      exact hins d2 g2 (List.mem_cons_of_mem d hd2) hg2 hp2

/-- C7: no hub record with power switching unsupported is ever
actionable: in the registry right after discovery and filtering, and in
the final registry usb_find_hubs returns after correlation, every
actionable record has ppps set (only PPPS hubs are inserted, and
correlation promotes only records already in the registry). -/
theorem C7_actionable_requires_ppps (location vendor : List Char)
    (exact : Bool) (devs : List scan_device) :
    (∀ h ∈ (usb_scan location vendor devs).1,
       h.actionable = true → h.ppps = true) ∧
    (∀ h ∈ (usb_find_hubs location vendor exact devs).2,
       h.actionable = true → h.ppps = true) := by
  have hall : ∀ h ∈ (usb_scan location vendor devs).1, h.ppps = true := by
    refine usb_scan_mem_aux location vendor devs (fun x => x.ppps = true)
      ([], true) (by intro x hx; cases hx) ?_
    intro d g _ _ hp
    rw [(apply_filters_fields location vendor _).2.1]
    exact hp
  refine ⟨fun h hm _ => hall h hm, ?_⟩
  intro h hm _
  rw [usb_find_hubs_snd] at hm
  obtain ⟨i, hi⟩ := List.getElem?_of_mem hm
  obtain ⟨x, hx, hle⟩ := forall2_get_right
    (correlate_forall2 exact (usb_scan location vendor devs).1) i h hi
  have hxm : x ∈ (usb_scan location vendor devs).1 := by
    exact List.getElem?_mem hx
  rw [hle.2.2.1]
  exact hall x hxm

/-- Witness for C7: the record scanned from dev_ok is actionable and its
ppps flag is confirmed. -/
theorem C7_actionable_requires_ppps_witness :
    ({ bcd_usb := 0x0210, nports := 4, ppps := true, actionable := true,
       vendor := "2109:0813".data, location := "1-2".data,
       description := [] } : hub_info).ppps = true :=
  (C7_actionable_requires_ppps [] [] false [dev_ok]).1 _ (by decide)
    (by decide)

/-- C8: after insertion the user filters leave a record actionable
exactly when the location filter is empty or matches the record's
location path case-insensitively in full, and the vendor filter is empty
or is a case-insensitive prefix of the record's vendor string; in
particular filter "1a2b" matches vendor string "1A2B:0002" but not
"2a2b:0001". -/
theorem C8_filters (location vendor : List Char)
    (devs : List scan_device) :
    (∀ h ∈ (usb_scan location vendor devs).1,
      (h.actionable = true ↔
        ((location = [] ∨ ci_eq location h.location) ∧
         (vendor = [] ∨ ci_starts vendor h.vendor)))) ∧
    ci_starts "1a2b".data "1A2B:0002".data ∧
    ¬ ci_starts "1a2b".data "2a2b:0001".data := by
  refine ⟨?_, by unfold ci_starts; decide, by unfold ci_starts; decide⟩
  refine usb_scan_mem_aux location vendor devs
    (fun x => x.actionable = true ↔
      ((location = [] ∨ ci_eq location x.location) ∧
       (vendor = [] ∨ ci_starts vendor x.vendor)))
    ([], true) (by intro x hx; cases hx) ?_
  intro d g _ _ _
  have hfields := apply_filters_fields location vendor
    { bcd_usb := g.bcd_usb, nports := g.nports,
      ppps := get_hub_info_ppps g.wHubCharacteristics,
      actionable := false, vendor := g.vendor, location := g.location,
      description := d.description }
  rw [hfields.2.2.1, hfields.2.2.2]
  exact apply_filters_actionable location vendor _

/-- Witness for C8: the record scanned from dev_vendor_sample under
vendor filter "1a2b" is actionable, and the theorem turns that into the
case-insensitive prefix facts. -/
theorem C8_filters_witness :
    (([] : List Char) = [] ∨ ci_eq [] "1-2".data) ∧
    ("1a2b".data = [] ∨ ci_starts "1a2b".data "1A2B:0002".data) :=
  ((C8_filters [] "1a2b".data [dev_vendor_sample]).1
    { bcd_usb := 0x0210, nports := 4, ppps := true, actionable := true,
      vendor := "1A2B:0002".data, location := "1-2".data,
      description := [] } (by decide)).mp (by decide)
